import Mathlib

/-!
Shallow embedding of the Playlist_creator server core
(`src/server/routes/spotify.js`, `src/server/routes/utils/playlistCache.js`,
`src/server/routes/utils/responseValidator.js`, pricing and schema modules)
and proofs about the claims on its specification.

JavaScript strings are modelled as `List Char`; only the ASCII behaviour of
`toLowerCase`, `trim` and the regex classes `\w`/`\s`/`\b` is modelled, which
covers every concrete input appearing in the claims.
-/

/-- Convert a Lean string literal to the `List Char` representation used
throughout this development. -/
def strL (s : String) : List Char := s.data

/-- ASCII case lowering, the fragment of JS `String.prototype.toLowerCase`
relevant here. -/
def lowerChar (c : Char) : Char :=
  if 'A' ≤ c ∧ c ≤ 'Z' then Char.ofNat (c.toNat + 32) else c

/-- `toLowerCase` on a whole string. -/
def lowerStr (s : List Char) : List Char := s.map lowerChar

/-- The ASCII fragment of the JS regex class `\s` (and of the whitespace set
used by `String.prototype.trim`). -/
def wsChar (c : Char) : Bool :=
  c = ' ' || c = '\t' || c = '\n' || c = '\r' || c = '\x0b' || c = '\x0c'

/-- JS `String.prototype.trim`: drop whitespace from both ends. -/
def trimStr (s : List Char) : List Char :=
  ((s.dropWhile wsChar).reverse.dropWhile wsChar).reverse

/-- The JS regex class `\w` (ASCII): letters, digits and underscore. -/
def isWordChar (c : Char) : Bool :=
  ('a' ≤ c && c ≤ 'z') || ('A' ≤ c && c ≤ 'Z') || ('0' ≤ c && c ≤ '9') || c = '_'

/-- Whether position `i` of `s` holds a word character (out-of-range counts
as non-word, as in JS regex semantics). -/
def wordAt (s : List Char) (i : Nat) : Bool :=
  match s[i]? with
  | some c => isWordChar c
  | none => false

/-- JS regex `\b`: there is a word boundary at position `i` (between
`s[i-1]` and `s[i]`) iff exactly one side is a word character. -/
def boundaryAt (s : List Char) (i : Nat) : Bool :=
  (if i = 0 then false else wordAt s (i - 1)) != wordAt s i

/-- The literal string `pat` occurs in `s` starting at position `i`. -/
def occursAt (pat s : List Char) (i : Nat) : Bool :=
  decide ((s.drop i).take pat.length = pat)

/-- Test of the JS regex `` new RegExp(`\\b${escaped}\\b`, "i") `` against `s`,
where `escaped` is the regex-escaped literal `pat`: `pat` occurs somewhere in
`s` flanked by word boundaries.  Call sites lower-case both `pat` and `s`
before the test, so the `i` flag adds nothing. -/
def wbTest (pat s : List Char) : Bool :=
  (List.range (s.length + 1)).any fun i =>
    occursAt pat s i && boundaryAt s i && boundaryAt s (i + pat.length)

/-- JS `hay.includes(needle)`: plain substring test. -/
def includesStr (hay needle : List Char) : Bool :=
  (List.range (hay.length + 1)).any fun i => occursAt needle hay i

/-- Declarative counterpart of `wbTest`: the literal `pat` occurs at some
position of `s` with a word boundary on each side. -/
def OccursWithBoundaries (pat s : List Char) : Prop :=
  ∃ i, i + pat.length ≤ s.length ∧ (s.drop i).take pat.length = pat ∧
    boundaryAt s i = true ∧ boundaryAt s (i + pat.length) = true

/-- An artist object of a Spotify track (`{ name: ... }`). -/
structure SpArtist where
  name : List Char
deriving DecidableEq

/-- Embedding of `artistsMatch` (spotify.js lines 106-126): every requested
artist must match some candidate artist name, case-insensitively, with word
boundaries. -/
def artistsMatch (requestedArtists : List (List Char)) (trackArtists : List SpArtist) : Bool :=
  if requestedArtists.isEmpty then true
  else if trackArtists.isEmpty then false
  else
    let trackArtistNames := trackArtists.map fun a => trimStr (lowerStr a.name)
    requestedArtists.all fun reqArtist =>
      let reqLower := trimStr (lowerStr reqArtist)
      trackArtistNames.any fun trackArtist => wbTest reqLower trackArtist

/-! ### `extractArtistsForMatching` (spotify.js lines 93-103)

The artist string is split on the JS regex
`/\s*(?:ft\.?|feat\.?|featuring|&|and)\s+/i`.  The separator is: optional
whitespace, one of the collaboration keywords (ordered alternation, with an
optional dot after `ft`/`feat`), then at least one whitespace character. -/

/-- Consume the keyword `kw` (given lower-case) case-insensitively from the
head of the input, returning the rest. -/
def stripKw : List Char → List Char → Option (List Char)
  | [], rest => some rest
  | _ :: _, [] => none
  | k :: ks, c :: cs => if lowerChar c = k then stripKw ks cs else none

/-- JS regex `\s+` (greedy): consume at least one whitespace character and
then the maximal whitespace run. -/
def spacePlus : List Char → Option (List Char)
  | [] => none
  | c :: cs => if wsChar c then some (cs.dropWhile wsChar) else none

/-- JS regex `\.?\s+` with backtracking: greedily take the dot, and if `\s+`
then fails, retry without the dot. -/
def dotThenSpaces (rest : List Char) : Option (List Char) :=
  match rest with
  | '.' :: r =>
    match spacePlus r with
    | some r2 => some r2
    | none => spacePlus rest
  | _ => spacePlus rest

/-- One keyword alternative followed by its tail (`\.?` only for `ft` and
`feat`) and the mandatory `\s+`. -/
def sepAlt (kw : List Char) (allowDot : Bool) (l : List Char) : Option (List Char) :=
  match stripKw kw l with
  | none => none
  | some rest => if allowDot then dotThenSpaces rest else spacePlus rest

/-- The ordered alternation `ft\.?|feat\.?|featuring|&|and` followed by `\s+`,
with regex backtracking across alternatives. -/
def trySep (l : List Char) : Option (List Char) :=
  (sepAlt (strL "ft") true l).orElse fun _ =>
  (sepAlt (strL "feat") true l).orElse fun _ =>
  (sepAlt (strL "featuring") false l).orElse fun _ =>
  (sepAlt (strL "&") false l).orElse fun _ =>
  sepAlt (strL "and") false l

/-- A separator match starting exactly at the head of `l`: the leading `\s*`
is forced to consume the whole whitespace run, because no keyword alternative
starts with whitespace.  Returns the input remaining after the match. -/
def matchSepAt (l : List Char) : Option (List Char) :=
  trySep (l.dropWhile wsChar)

/-- JS `String.prototype.split` specialised to the separator above, with
explicit fuel (each separator match strictly shrinks the input, so the fuel
`s.length + 1` of `splitArtistString` is never exhausted; see
`splitGoF_fuel_irrelevant`). -/
def splitGoF : Nat → List Char → List Char → List (List Char)
  | 0, l, acc => [acc.reverse ++ l]
  | _ + 1, [], acc => [acc.reverse]
  | fuel + 1, c :: rest, acc =>
    match matchSepAt (c :: rest) with
    | some rem => acc.reverse :: splitGoF fuel rem []
    | none => splitGoF fuel rest (c :: acc)

/-- `artistString.split(/\s*(?:ft\.?|feat\.?|featuring|&|and)\s+/i)`. -/
def splitArtistString (s : List Char) : List (List Char) :=
  splitGoF (s.length + 1) s []

/-- Embedding of `extractArtistsForMatching` (spotify.js lines 93-103). -/
def extractArtistsForMatching (artistString : List Char) : List (List Char) :=
  if artistString.isEmpty then []
  else
    let parts := ((splitArtistString artistString).map trimStr).filter fun a => !a.isEmpty
    if parts.isEmpty then [trimStr artistString] else parts

/-! ### Catalog client model

The HTTP/credential environment of `spotify.js` is modelled explicitly: each
upstream request either succeeds with a decoded payload or fails (4xx/5xx or a
network error, which `axios` surfaces as a thrown exception). -/

/-- Outcome of one upstream request. -/
inductive Fetch (α : Type) where
  | ok (val : α)
  | err
deriving DecidableEq

/-- A candidate track of the `/search` response (the fields `searchTrack`
reads). -/
structure SpTrack where
  id : List Char
  name : List Char
  artists : List SpArtist
  url : Option (List Char)
  image : Option (List Char)
deriving DecidableEq

/-- A raw track object inside a playlist-page / top-tracks response. -/
structure RawTrack where
  id : List Char
  name : List Char
  artistNames : List (List Char)
  album : List Char
  popularity : Option Nat
  url : List Char
deriving DecidableEq

/-- One `items` element of a playlist-tracks page (`item.track` may be null). -/
structure RawItem where
  track : Option RawTrack
deriving DecidableEq

/-- One page of a paginated playlist-tracks response. `next` is whether
`data.next` is non-null. -/
structure Page where
  items : List RawItem
  next : Bool
deriving DecidableEq

/-- The external world seen by the catalog client during one operation. -/
structure SpotifyEnv where
  configured : Bool
  tokenFetch : Fetch Unit
  search : Fetch (List SpTrack)
  playlistPages : List (Fetch Page)
  artistLookup : List Char → Fetch (List (List Char))
  topTracks : List Char → Fetch (List RawTrack)

/-- The `limit` parameter of the free-form search request issued by
`searchTrack` (spotify.js line 151). -/
def searchRequestLimit : Nat := 10

/-- The candidate-selection core of `searchTrack` (spotify.js lines 156-177):
extract the requested artists and take the first candidate on which
`artistsMatch` succeeds, else null. -/
def searchTrackSelect (artistName : List Char) (items : List SpTrack) : Option SpTrack :=
  if items.length > 0 then
    let requestedArtists := extractArtistsForMatching artistName
    match items.find? (fun track => artistsMatch requestedArtists track.artists) with
    | some m => some m
    | none => none
  else none

/-- Embedding of `searchTrack` (spotify.js lines 129-188).  The second
component counts the catalog search requests issued.  The `try`/`catch`
around the body maps a failed credential fetch (which `getSpotifyAccessToken`
throws) or a failed search request to `null`. -/
def searchTrack (env : SpotifyEnv) (songName artistName : List Char) :
    Option SpTrack × Nat :=
  if !env.configured then (none, 0)
  else
    match env.tokenFetch with
    | .err => (none, 0)
    | .ok _ =>
      match env.search with
      | .err => (none, 1)
      | .ok items => (searchTrackSelect artistName items, 1)

/-! ### `verifySongs` (spotify.js lines 191-241) -/

/-- A JSON field value as validation code sees it: absent, a string, or a
non-string value with its JS truthiness. -/
inductive JField where
  | missing
  | strVal (s : List Char)
  | otherVal (truthy : Bool)
deriving DecidableEq

/-- JS truthiness of a field (`undefined`, `""`, `0`, `null`, `false` are
falsy). -/
def fieldTruthy : JField → Bool
  | .missing => false
  | .strVal s => !s.isEmpty
  | .otherVal t => t

/-- JS `typeof v === "string"`. -/
def fieldIsString : JField → Bool
  | .strVal _ => true
  | _ => false

/-- An externally supplied song-like object: its `song` and `artist`
properties. -/
structure SongInput where
  song : JField
  artist : JField
deriving DecidableEq

/-- The result object built for each song (spotify.js lines 213-221). -/
structure VerifiedSong where
  song : List Char
  artist : List Char
  name : List Char
  verified : Bool
  spotifyId : Option (List Char)
  spotifyUrl : Option (List Char)
  image : Option (List Char)
deriving DecidableEq

/-- A song-like value fails the fail-fast shape check of `verifySongs`
(line 201): the value is falsy or not an object, or `song`/`artist` is falsy;
additionally a truthy non-string field makes the subsequent `.trim()` call
throw a `TypeError`. -/
def badShape : Option SongInput → Bool
  | none => true
  | some d =>
    !(fieldTruthy d.song && fieldIsString d.song &&
      fieldTruthy d.artist && fieldIsString d.artist)

/-- The good-path body of the per-song closure in `verifySongs`: trim both
fields, search, and assemble the result.  The second component counts catalog
search requests issued for this song. -/
def verifySongOk (env : SpotifyEnv) (d : SongInput) : VerifiedSong × Nat :=
  match d.song, d.artist with
  | .strVal s, .strVal a =>
    let songName := trimStr s
    let artistName := trimStr a
    let res := searchTrack env songName artistName
    ({ song := songName
       artist := artistName
       name := songName ++ strL " - " ++ artistName
       verified := res.1.isSome
       spotifyId := res.1.map SpTrack.id
       spotifyUrl := res.1.bind SpTrack.url
       image := res.1.bind SpTrack.image }, res.2)
  | _, _ => (⟨[], [], [], false, none, none, none⟩, 0)

/-- One iteration of the `songs.map` closure inside `verifySongs`
(lines 199-229): malformed input throws, otherwise the song is searched and
an entry with positional correspondence is produced. -/
def verifySongStep (env : SpotifyEnv) (sd : Option SongInput) :
    Except Unit (VerifiedSong × Nat) :=
  if badShape sd then .error ()
  else
    match sd with
    | some d => .ok (verifySongOk env d)
    | none => .error ()

/-- Embedding of `verifySongs` (lines 191-241): `Promise.all` over the
per-song closures rejects when any closure throws, else yields the results
in input order. -/
def verifySongs (env : SpotifyEnv) : List (Option SongInput) →
    Except Unit (List (VerifiedSong × Nat))
  | [] => .ok []
  | sd :: rest =>
    match verifySongStep env sd with
    | .error e => .error e
    | .ok r =>
      match verifySongs env rest with
      | .error e => .error e
      | .ok rs => .ok (r :: rs)

/-! ### Playlist cache search (playlistCache.js lines 144-193) -/

/-- A cached curator playlist (only the fields `searchPlaylists` reads;
cache entries additionally carry `id`, `owner`, `trackCount`, `image`,
`externalUrl`, which the search never inspects). -/
structure CachedPlaylist where
  id : List Char
  name : List Char
  description : Option (List Char)
deriving DecidableEq

/-- Score of one playlist across all keywords (lines 152-181): per keyword,
`+15` for a word-boundary match in the name, `+10` for a plain substring
match in the name, `+8` for a word-boundary match in the description, `+5`
for a plain substring match in the description. -/
def playlistScore (keywords : List (List Char)) (p : CachedPlaylist) : Nat :=
  let playlistName := lowerStr p.name
  let playlistDesc := lowerStr (p.description.getD [])
  keywords.foldl
    (fun score keyword =>
      let keywordLower := lowerStr keyword
      let s1 := if wbTest keywordLower playlistName then 15 else 0
      let s2 := if includesStr playlistName keywordLower then 10 else 0
      let s3 := if wbTest keywordLower playlistDesc then 8 else 0
      let s4 := if includesStr playlistDesc keywordLower then 5 else 0
      score + s1 + s2 + s3 + s4)
    0

/-- The scored, positively-scoring playlists in encounter order — the
contents of the `scores` map (insertion order) of `searchPlaylists`. -/
def scoredPlaylists (playlists : List CachedPlaylist) (keywords : List (List Char)) :
    List (CachedPlaylist × Nat) :=
  (playlists.map fun p => (p, playlistScore keywords p)).filter fun pr => 0 < pr.2

/-- The comparator `(a, b) => b[1] - a[1]` of `searchPlaylists`: sort by
descending score; JS `Array.prototype.sort` is stable. -/
def scoreDescLe (a b : CachedPlaylist × Nat) : Bool := decide (b.2 ≤ a.2)

/-- Embedding of `searchPlaylists` (playlistCache.js lines 144-193). -/
def searchPlaylists (playlists : List CachedPlaylist) (keywords : List (List Char))
    (limit : Nat) : List CachedPlaylist :=
  if keywords.isEmpty then []
  else
    ((((scoredPlaylists playlists keywords).mergeSort scoreDescLe).take limit).map
      fun pr => pr.1)

/-! ### Pricing (`utils/pricing.js`) -/

/-- A per-model pricing record: USD per token for uncached input, cached
input and output. -/
structure Pricing where
  input : ℚ
  cached : ℚ
  output : ℚ
deriving DecidableEq

/-- `MODEL_PRICING["gpt-4o"]`. -/
def gpt4oPricing : Pricing := ⟨2.5 / 1000000, 0.25 / 1000000, 10.0 / 1000000⟩

/-- The static pricing table `MODEL_PRICING`. -/
def MODEL_PRICING : List (List Char × Pricing) :=
  [(strL "gpt-4o", gpt4oPricing),
   (strL "gpt-4o-mini", ⟨0.15 / 1000000, 0.015 / 1000000, 0.6 / 1000000⟩),
   (strL "gpt-5", ⟨1.25 / 1000000, 0.125 / 1000000, 10.0 / 1000000⟩),
   (strL "gpt-5-mini", ⟨0.25 / 1000000, 0.025 / 1000000, 2.0 / 1000000⟩)]

/-- `getPricing`: look the model up, falling back to `gpt-4o`. -/
def getPricing (model : List Char) : Pricing :=
  match MODEL_PRICING.find? (fun pr => decide (pr.1 = model)) with
  | some pr => pr.2
  | none => gpt4oPricing

/-- Token usage of one LLM call; absent counters read as `0`
(`usage.prompt_tokens || 0` etc.). -/
structure Usage where
  prompt_tokens : Option Nat
  completion_tokens : Option Nat
  cached_tokens : Option Nat
deriving DecidableEq

/-- Embedding of `calculateCost` (pricing module lines 40-50). -/
def calculateCost (usage : Usage) (model : List Char) : ℚ :=
  let pricing := getPricing model
  let promptTokens : ℤ := usage.prompt_tokens.getD 0
  let completionTokens : ℤ := usage.completion_tokens.getD 0
  let cachedTokens : ℤ := usage.cached_tokens.getD 0
  let uncachedInputTokens : ℤ := promptTokens - cachedTokens
  (uncachedInputTokens : ℚ) * pricing.input +
    (cachedTokens : ℚ) * pricing.cached +
    (completionTokens : ℚ) * pricing.output

/-- The `forEach` body of `calculateTotalCost` (pricing module lines 65-72):
accumulate uncached-input, cached and completion token components. -/
def totalCostStep (acc : ℤ × ℤ × ℤ) (usage : Usage) : ℤ × ℤ × ℤ :=
  let promptTokens : ℤ := usage.prompt_tokens.getD 0
  let completionTokens : ℤ := usage.completion_tokens.getD 0
  let cachedTokens : ℤ := usage.cached_tokens.getD 0
  (acc.1 + (promptTokens - cachedTokens), acc.2.1 + cachedTokens,
    acc.2.2 + completionTokens)

/-- Embedding of `calculateTotalCost` (pricing module lines 58-77): the
`forEach` accumulates the three components over all calls, then the rates are
applied once. -/
def calculateTotalCost (usages : List Usage) (model : List Char) : ℚ :=
  let pricing := getPricing model
  let acc : ℤ × ℤ × ℤ := usages.foldl totalCostStep (0, 0, 0)
  (acc.1 : ℚ) * pricing.input + (acc.2.1 : ℚ) * pricing.cached +
    (acc.2.2 : ℚ) * pricing.output

/-- Component-wise sum of usage records (the claim compares
`calculateTotalCost` with `calculateCost` applied to this sum). -/
def sumUsages (usages : List Usage) : Usage :=
  { prompt_tokens := some ((usages.map fun u => u.prompt_tokens.getD 0).sum)
    completion_tokens := some ((usages.map fun u => u.completion_tokens.getD 0).sum)
    cached_tokens := some ((usages.map fun u => u.cached_tokens.getD 0).sum) }

/-! ### Credential memoization (`getSpotifyAccessToken`, spotify.js lines 35-90)

The server is a single-threaded event loop; a call to
`getSpotifyAccessToken` runs synchronously from its entry until the first
`await` inside the token-request IIFE (the IIFE body up to `axios.post` runs
synchronously, so `tokenPromise` is assigned before control is yielded).
`tokenCallSync` is that synchronous prefix as a state transition; the second
component counts upstream token requests issued by the prefix. -/

/-- The module-level mutable credential cache (lines 36-38). -/
structure TokenState where
  accessToken : Option (List Char)
  tokenExpiry : ℤ
  tokenPromise : Option Nat
deriving DecidableEq

/-- Where a call is left after its synchronous prefix. -/
inductive TokenCallOutcome where
  | cached (tok : List Char)
  | notConfigured
  | awaiting (reqId : Nat)
  | started (reqId : Nat)
deriving DecidableEq

/-- Synchronous prefix of `getSpotifyAccessToken` (lines 41-89):
cached-token fast path, configuration check, in-flight-promise check, else
start a new upstream request (recorded under the fresh id `freshId`). -/
def tokenCallSync (configured : Bool) (now : ℤ) (st : TokenState) (freshId : Nat) :
    TokenState × Nat × TokenCallOutcome :=
  match st.accessToken with
  | some tok =>
    if now < st.tokenExpiry then (st, 0, .cached tok)
    else tokenCallSlow configured st freshId
  | none => tokenCallSlow configured st freshId
where
  /-- The path past the cached-token check. -/
  tokenCallSlow (configured : Bool) (st : TokenState) (freshId : Nat) :
      TokenState × Nat × TokenCallOutcome :=
    if !configured then (st, 0, .notConfigured)
    else
      match st.tokenPromise with
      | some reqId => (st, 0, .awaiting reqId)
      | none => ({ st with tokenPromise := some freshId }, 1, .started freshId)

/-- Resumption after a successful upstream token response (lines 70-78):
store the token, set the expiry to `now + (expiresIn - 600) * 1000`
milliseconds (the safety margin), clear the in-flight promise. -/
def tokenResolve (now : ℤ) (tok : List Char) (expiresIn : ℤ) : TokenState :=
  { accessToken := some tok
    tokenExpiry := now + (expiresIn - 600) * 1000
    tokenPromise := none }

/-! ### `validateAndFilterSongs` (responseValidator.js lines 6-22) and the
structured-output schema (the generation/refinement snapshot, lines 332-363)
-/

/-- Embedding of `validateAndFilterSongs`: `parsedResponse.songs` is `none`
when the property is absent, falsy or not an array (the throw case); each
array element is `none` when it is itself falsy. -/
def validateAndFilterSongs (songsField : Option (List (Option SongInput))) :
    Except (List Char) (List (List Char × List Char)) :=
  match songsField with
  | none => .error (strL "Invalid response: songs must be an array")
  | some items =>
    .ok
      ((((items.filter fun sd =>
            match sd with
            | none => false
            | some d =>
              fieldTruthy d.song && fieldTruthy d.artist &&
                fieldIsString d.song && fieldIsString d.artist).map
          fun sd =>
            match sd with
            | some ⟨.strVal s, .strVal a⟩ => (trimStr s, trimStr a)
            | _ => ([], [])).filter
        fun p => p.1.length > 0 && p.2.length > 0))

/-- Declarative per-element filter: an element survives
`validateAndFilterSongs` exactly when both fields are strings whose trimmed
value is non-empty, and it is returned trimmed. -/
def goodSong : Option SongInput → Option (List Char × List Char)
  | some ⟨.strVal s, .strVal a⟩ =>
    if !(trimStr s).isEmpty && !(trimStr a).isEmpty then some (trimStr s, trimStr a)
    else none
  | _ => none

/-- Item-count bounds of an array schema. -/
structure ArrayBounds where
  minItems : Nat
  maxItems : Nat
deriving DecidableEq

/-- The `songs` member of `playlistResponseSchema` in the generation module
snapshot (lines 332-363): required fields of each item and the array bounds
(`minItems: 0` to allow refusing unsatisfiable requests, `maxItems: 20`). -/
structure SongsSchema where
  requiredFields : List (List Char)
  bounds : ArrayBounds
deriving DecidableEq

/-- The structured-response schema constants as given in the source. -/
def playlistResponseSchema : SongsSchema :=
  { requiredFields := [strL "song", strL "artist"]
    bounds := { minItems := 0, maxItems := 20 } }

/-! ### Listing reads (`getPopularTracks`, `getTopTracksForArtists`,
`getTracksFromPlaylist`, spotify.js lines 649-905) -/

/-- The track object assembled from a playlist-page item (lines 697-703). -/
structure PTrack where
  id : List Char
  name : List Char
  artist : List Char
  album : List Char
  popularity : Nat
deriving DecidableEq

/-- `items.filter((item) => item.track && item.track.id).map(...)` for one
item: a missing track object or falsy id drops the item. -/
def toPTrack (it : RawItem) : Option PTrack :=
  match it.track with
  | none => none
  | some t =>
    if t.id.isEmpty then none
    else
      some
        { id := t.id
          name := t.name
          artist := List.intercalate (strL ", ") t.artistNames
          album := t.album
          popularity := t.popularity.getD 0 }

/-- The tracks kept from one page. -/
def pageTracks (pg : Page) : List PTrack := pg.items.filterMap toPTrack

/-- The pagination `do`/`while` loop shared by `getPopularTracks`
(lines 674-715) and `getTracksFromPlaylist` (lines 860-896): accumulate page
tracks, stop once `limit` tracks are collected or the upstream reports no
next page; a failed page request throws out of the loop. -/
def popLoop (limit : Nat) : List (Fetch Page) → List PTrack → Except Unit (List PTrack)
  | [], acc => .ok acc
  | .err :: _, _ => .error ()
  | .ok pg :: rest, acc =>
    let acc2 := acc ++ pageTracks pg
    if limit ≤ acc2.length ∨ pg.next = false then .ok acc2
    else popLoop limit rest acc2

/-- `new Map(allTracks.map((track) => [track.id, track]))`: JS `Map`
insertion keeps the position of the first occurrence of a key and the value
of the last `set` for it. -/
def mapUpsert (m : List (List Char × PTrack)) (t : PTrack) : List (List Char × PTrack) :=
  if m.any fun pr => decide (pr.1 = t.id) then
    m.map fun pr => if pr.1 = t.id then (pr.1, t) else pr
  else m ++ [(t.id, t)]

/-- `Array.from(new Map(...).values())`. -/
def jsMapValues (l : List PTrack) : List PTrack :=
  (l.foldl mapUpsert []).map fun pr => pr.2

/-- The comparator `(a, b) => b.popularity - a.popularity`: stable sort by
non-increasing popularity. -/
def popDescLe (a b : PTrack) : Bool := decide (b.popularity ≤ a.popularity)

/-- Embedding of `getPopularTracks` (spotify.js lines 657-731).
`playlistType` and `market` only shape the upstream request, which the
environment answers. -/
def getPopularTracks (env : SpotifyEnv) (limit : Nat)
    (playlistType market : List Char) : List PTrack :=
  if !env.configured then []
  else
    match env.tokenFetch with
    | .err => []
    | .ok _ =>
      match popLoop limit env.playlistPages [] with
      | .error _ => []
      | .ok allTracks => ((jsMapValues allTracks).mergeSort popDescLe).take limit

/-- Embedding of `getTracksFromPlaylist` (spotify.js lines 845-905): same
loop, no deduplication or sort, truncated to `limit`. -/
def getTracksFromPlaylist (env : SpotifyEnv) (playlistId : List Char) (limit : Nat)
    (market : List Char) : List PTrack :=
  if !env.configured then []
  else
    match env.tokenFetch with
    | .err => []
    | .ok _ =>
      match popLoop limit env.playlistPages [] with
      | .error _ => []
      | .ok allTracks => allTracks.take limit

/-- The track object assembled from a top-tracks response entry
(lines 820-827). -/
structure TopTrack where
  id : List Char
  name : List Char
  artist : List Char
  album : List Char
  popularity : Nat
  spotifyUrl : List Char
deriving DecidableEq

/-- `topTracksResponse.data.tracks.slice(0, tracksPerArtist).map(...)`. -/
def toTopTrack (t : RawTrack) : TopTrack :=
  { id := t.id
    name := t.name
    artist := List.intercalate (strL ", ") t.artistNames
    album := t.album
    popularity := t.popularity.getD 0
    spotifyUrl := t.url }

/-- The per-artist body of `getTopTracksForArtists` (lines 795-834): search
for the artist, skip it if not found, fetch its top tracks; the inner
`try`/`catch` turns any per-artist failure into a skip. -/
def topTracksForOneArtist (env : SpotifyEnv) (artistName : List Char)
    (tracksPerArtist : Nat) : List TopTrack :=
  match env.artistLookup artistName with
  | .err => []
  | .ok [] => []
  | .ok (artistId :: _) =>
    match env.topTracks artistId with
    | .err => []
    | .ok tracks => (tracks.take tracksPerArtist).map toTopTrack

/-- Embedding of `getTopTracksForArtists` (spotify.js lines 786-842).  The
outer `try`/`catch` turns a failed credential fetch into `[]`. -/
def getTopTracksForArtists (env : SpotifyEnv) (artistNames : List (List Char))
    (tracksPerArtist : Nat) (market : List Char) : List TopTrack :=
  if !env.configured || artistNames.isEmpty then []
  else
    match env.tokenFetch with
    | .err => []
    | .ok _ =>
      artistNames.foldl
        (fun allTracks artistName =>
          allTracks ++ topTracksForOneArtist env artistName tracksPerArtist)
        []

/-- The candidate predicate of `searchTrack`: its artist list matches all
artists extracted from the requested artist string. -/
def candidateMatches (artistName : List Char) (track : SpTrack) : Bool :=
  artistsMatch (extractArtistsForMatching artistName) track.artists

/-! ### Concrete data used by witnesses and counterexamples -/

/-- A catalog candidate track returned by a search. -/
def candTrack : SpTrack :=
  { id := strL "id1", name := strL "Some Song", artists := [⟨strL "Somebody"⟩],
    url := some (strL "https://x/1"), image := none }

/-- A catalog candidate credited to Metallica. -/
def metallicaTrack : SpTrack :=
  { id := strL "id2", name := strL "Battery", artists := [⟨strL "Metallica"⟩],
    url := none, image := none }

/-- A non-matching candidate ranked above `metallicaTrack`. -/
def otherTrack : SpTrack :=
  { id := strL "id3", name := strL "Battery", artists := [⟨strL "Somebody Else"⟩],
    url := none, image := none }

/-- Environment: credentials configured, token fetch succeeds, the track
search returns `otherTrack` then `metallicaTrack`. -/
def envSearchOk : SpotifyEnv :=
  { configured := true, tokenFetch := .ok (), search := .ok [otherTrack, metallicaTrack],
    playlistPages := [], artistLookup := fun _ => .err, topTracks := fun _ => .err }

/-- Environment: credentials configured, token fetch succeeds, the track
search returns a single candidate. -/
def envVerify : SpotifyEnv :=
  { configured := true, tokenFetch := .ok (), search := .ok [candTrack],
    playlistPages := [], artistLookup := fun _ => .err, topTracks := fun _ => .err }

/-- Environment with no catalog credentials configured. -/
def envUnconfigured : SpotifyEnv :=
  { configured := false, tokenFetch := .err, search := .err,
    playlistPages := [], artistLookup := fun _ => .err, topTracks := fun _ => .err }

/-- Environment where the credential fetch fails. -/
def envTokenErr : SpotifyEnv :=
  { configured := true, tokenFetch := .err, search := .ok [],
    playlistPages := [.ok ⟨[], false⟩], artistLookup := fun _ => .ok [],
    topTracks := fun _ => .ok [] }

/-- Environment where every upstream read request fails after a successful
credential fetch. -/
def envReadErr : SpotifyEnv :=
  { configured := true, tokenFetch := .ok (), search := .err,
    playlistPages := [.err], artistLookup := fun _ => .err,
    topTracks := fun _ => .err }

/-- Raw page items for the duplicate-id example: id `x` (popularity 5),
id `y` (popularity 5), then id `x` again with a different name. -/
def trackARaw : RawTrack :=
  { id := strL "x", name := strL "A", artistNames := [strL "P"], album := strL "Al",
    popularity := some 5, url := strL "u1" }

/-- Second raw track of the duplicate-id example. -/
def trackBRaw : RawTrack :=
  { id := strL "y", name := strL "B", artistNames := [strL "Q"], album := strL "Al",
    popularity := some 5, url := strL "u2" }

/-- The later entry sharing id `x`. -/
def trackA2Raw : RawTrack :=
  { id := strL "x", name := strL "A2", artistNames := [strL "P"], album := strL "Al",
    popularity := some 5, url := strL "u3" }

/-- Environment answering the playlist-page request with the three raw
tracks above on a single final page. -/
def envPages : SpotifyEnv :=
  { configured := true, tokenFetch := .ok (),
    search := .ok [],
    playlistPages := [.ok ⟨[⟨some trackARaw⟩, ⟨some trackBRaw⟩, ⟨some trackA2Raw⟩], false⟩],
    artistLookup := fun _ => .ok [], topTracks := fun _ => .ok [] }

/-- The mapped track kept for id `y`. -/
def trackB : PTrack :=
  { id := strL "y", name := strL "B", artist := strL "Q", album := strL "Al",
    popularity := 5 }

/-- The mapped track kept for id `x`: the last-seen entry. -/
def trackA2 : PTrack :=
  { id := strL "x", name := strL "A2", artist := strL "P", album := strL "Al",
    popularity := 5 }

/-- The name-match playlist of the ranking example. -/
def wkPlaylist : CachedPlaylist := ⟨strL "p1", strL "Workout Hits", none⟩

/-- The description-only-match playlist of the ranking example. -/
def chillPlaylist : CachedPlaylist :=
  ⟨strL "p2", strL "Chill Vibes", some (strL "workout warmup")⟩

/-- A playlist whose name contains the keyword only as a bare substring. -/
def substrNamePlaylist : CachedPlaylist := ⟨strL "p3", strL "megaworkouts", none⟩

/-- A playlist whose description contains the keyword only as a bare
substring. -/
def substrDescPlaylist : CachedPlaylist :=
  ⟨strL "p4", strL "Mix", some (strL "megaworkouts")⟩

/-- Usage record A of the aggregation example. -/
def usageA : Usage := ⟨some 100, some 50, some 0⟩

/-- Usage record B of the aggregation example. -/
def usageB : Usage := ⟨some 80, some 40, some 20⟩

/-! ## Theorems -/

theorem wbTest_iff (pat s : List Char) : wbTest pat s = true ↔ OccursWithBoundaries pat s := by
  unfold wbTest OccursWithBoundaries
  rw [List.any_eq_true]
  constructor
  · rintro ⟨i, hi, h⟩
    simp only [Bool.and_eq_true, occursAt, decide_eq_true_eq] at h
    obtain ⟨⟨hocc, hb1⟩, hb2⟩ := h
    refine ⟨i, ?_, hocc, hb1, hb2⟩
    have hlen : ((s.drop i).take pat.length).length = pat.length := by rw [hocc]
    simp only [List.length_take, List.length_drop] at hlen
    have hi2 : i < s.length + 1 := List.mem_range.mp hi
    omega
  · rintro ⟨i, hle, hocc, hb1, hb2⟩
    refine ⟨i, List.mem_range.mpr (by omega), ?_⟩
    simp [occursAt, hocc, hb1, hb2]

/-- Claim C1: `artistsMatch` succeeds exactly when every requested artist
name occurs, case-insensitively and flanked by word boundaries (whole word or
word sequence, never a bare substring), in at least one candidate artist
name; in particular the three example evaluations of the specification hold,
and `"Ana"`/`"Banana"` shows that a bare substring occurrence is rejected. -/
theorem artistsMatch_characterization :
    (∀ (requestedArtists : List (List Char)) (trackArtists : List SpArtist),
      artistsMatch requestedArtists trackArtists = true ↔
        ∀ req ∈ requestedArtists, ∃ a ∈ trackArtists,
          OccursWithBoundaries (trimStr (lowerStr req)) (trimStr (lowerStr a.name)))
    ∧ artistsMatch [strL "Metallica"] [⟨strL "Metallica"⟩] = true
    ∧ artistsMatch [strL "Ana"] [⟨strL "Banana"⟩] = false
    ∧ includesStr (lowerStr (strL "Banana")) (lowerStr (strL "Ana")) = true
    ∧ artistsMatch [strL "Jay-Z", strL "Kanye West"]
        [⟨strL "Jay-Z"⟩, ⟨strL "Kanye West"⟩] = true := by
  refine ⟨?_, by decide, by decide, by decide, by decide⟩
  intro R T
  match R, T with
  | [], T => simp [artistsMatch]
  | r :: rs, [] =>
    have hL : artistsMatch (r :: rs) [] = false := by simp [artistsMatch]
    rw [hL]
    simp only [Bool.false_eq_true, false_iff]
    intro h
    obtain ⟨a, ha, -⟩ := h r (List.mem_cons_self r rs)
    exact absurd ha (List.not_mem_nil a)
  | r :: rs, t :: ts =>
    simp [artistsMatch, List.all_eq_true, List.any_eq_true, List.mem_map, wbTest_iff]

/-- Instance of the characterization of claim C1 at the Metallica example. -/
theorem artistsMatch_characterization_witness :
    artistsMatch [strL "Metallica"] [⟨strL "Metallica"⟩] = true ↔
      ∀ req ∈ [strL "Metallica"], ∃ a ∈ ([⟨strL "Metallica"⟩] : List SpArtist),
        OccursWithBoundaries (trimStr (lowerStr req)) (trimStr (lowerStr a.name)) :=
  artistsMatch_characterization.1 _ _

theorem searchTrackSelect_eq_find? (artistName : List Char) (items : List SpTrack) :
    searchTrackSelect artistName items = items.find? (candidateMatches artistName) := by
  unfold searchTrackSelect candidateMatches
  match items with
  | [] => simp
  | t :: ts =>
    simp only [List.length_cons, Nat.zero_lt_succ, if_pos]
    cases hf : (t :: ts).find? fun track =>
        artistsMatch (extractArtistsForMatching artistName) track.artists <;>
      simp [hf]

theorem find?_first {α : Type} (p : α → Bool) :
    ∀ (pre : List α) (t : α) (post : List α), (∀ u ∈ pre, p u = false) → p t = true →
      (pre ++ t :: post).find? p = some t := by
  intro pre
  induction pre with
  | nil => intro t post _ ht; exact List.find?_cons_of_pos _ ht
  | cons a pre ih =>
    intro t post hpre ht
    have ha := hpre a (by simp)
    simp only [List.cons_append, List.find?_cons, ha]
    exact ih t post (fun u hu => hpre u (by simp [hu])) ht

/-- Claim C2: when the catalog search returns candidates, `searchTrack`
returns the first candidate whose artist list matches all artists extracted
from the requested artist string, and returns `null` (never the top search
hit) when no candidate matches; the search requests up to 10 candidates. -/
theorem searchTrack_first_match :
    ∀ (env : SpotifyEnv) (songName artistName : List Char) (items : List SpTrack),
      env.configured = true → env.tokenFetch = .ok () → env.search = .ok items →
      ((searchTrack env songName artistName).1 =
          items.find? (candidateMatches artistName))
      ∧ (∀ t, items.find? (candidateMatches artistName) = some t →
          t ∈ items ∧ candidateMatches artistName t = true)
      ∧ ((∀ u ∈ items, candidateMatches artistName u = false) →
          (searchTrack env songName artistName).1 = none)
      ∧ (∀ pre t post, items = pre ++ t :: post →
          (∀ u ∈ pre, candidateMatches artistName u = false) →
          candidateMatches artistName t = true →
          (searchTrack env songName artistName).1 = some t)
      ∧ searchRequestLimit = 10 := by
  intro env sn an items hc ht hs
  have hrun : (searchTrack env sn an).1 = items.find? (candidateMatches an) := by
    simp [searchTrack, hc, ht, hs, searchTrackSelect_eq_find?]
  refine ⟨hrun, ?_, ?_, ?_, rfl⟩
  · intro t hfind
    exact ⟨List.mem_of_find?_eq_some hfind, List.find?_some hfind⟩
  · intro hall
    rw [hrun]
    exact List.find?_eq_none.mpr fun x hx => by simp [hall x hx]
  · intro pre t post hitems hpre hmatch
    rw [hrun, hitems]
    exact find?_first _ pre t post hpre hmatch

/-- Instance of claim C2 on a concrete search: the top hit has the wrong
artist, the second candidate is by Metallica, and `searchTrack` returns the
second candidate. -/
theorem searchTrack_first_match_witness :
    envSearchOk.configured = true ∧ envSearchOk.tokenFetch = .ok () ∧
      envSearchOk.search = .ok [otherTrack, metallicaTrack] ∧
      (searchTrack envSearchOk (strL "Battery") (strL "Metallica")).1 =
        [otherTrack, metallicaTrack].find? (candidateMatches (strL "Metallica")) ∧
      (searchTrack envSearchOk (strL "Battery") (strL "Metallica")).1 =
        some metallicaTrack :=
  ⟨rfl, rfl, rfl,
    (searchTrack_first_match envSearchOk (strL "Battery") (strL "Metallica")
        [otherTrack, metallicaTrack] rfl rfl rfl).1,
    by decide⟩

/-- Counterexample to claim C3: a song whose artist string is whitespace-only
(so empty once trimmed, hence unparsable into artist names) is *not*
short-circuited to "not verified": a catalog search is issued (count 1) and
the song comes back verified against the first candidate. -/
theorem verifySongStep_whitespace_artist_counterexample :
    verifySongStep envVerify (some ⟨.strVal (strL "Test"), .strVal (strL " ")⟩) =
      .ok ({ song := strL "Test", artist := [], name := strL "Test - ",
             verified := true, spotifyId := some (strL "id1"),
             spotifyUrl := some (strL "https://x/1"), image := none }, 1) := by
  rfl

/-- Claim C3 amended: an empty artist field makes `verifySongs` throw before
any search is issued, while a whitespace-only artist string passes the shape
check, trims to empty, and a catalog search *is* issued whose empty
requested-artist list vacuously matches the first candidate. -/
theorem verifySongs_empty_artist_behavior :
    (∀ (env : SpotifyEnv) (songField : JField),
      verifySongStep env (some ⟨songField, .strVal []⟩) = .error ())
    ∧ (∀ (env : SpotifyEnv) (s w : List Char) (c : SpTrack) (rest : List SpTrack),
        s ≠ [] → w ≠ [] → trimStr w = [] →
        env.configured = true → env.tokenFetch = .ok () → env.search = .ok (c :: rest) →
        verifySongStep env (some ⟨.strVal s, .strVal w⟩) =
          .ok ({ song := trimStr s, artist := [], name := trimStr s ++ strL " - ",
                 verified := true, spotifyId := some c.id, spotifyUrl := c.url,
                 image := c.image }, 1)) := by
  constructor
  · intro env songField
    simp [verifySongStep, badShape, fieldTruthy]
  · intro env s w c rest hs hw htrim hc ht hsr
    have hbad : badShape (some ⟨.strVal s, .strVal w⟩) = false := by
      simp [badShape, fieldTruthy, fieldIsString, List.isEmpty_iff, hs, hw]
    have hsearch : searchTrack env (trimStr s) [] = (some c, 1) := by
      simp [searchTrack, hc, ht, hsr, searchTrackSelect, extractArtistsForMatching,
        artistsMatch, List.find?_cons]
    simp [verifySongStep, hbad, verifySongOk, htrim, hsearch]

/-- Instance of the amended claim C3 at a concrete whitespace-only artist. -/
theorem verifySongs_empty_artist_behavior_witness :
    ((strL "X" : List Char) ≠ [] ∧ (strL " " : List Char) ≠ [] ∧
      trimStr (strL " ") = [] ∧ envVerify.configured = true ∧
      envVerify.tokenFetch = .ok () ∧ envVerify.search = .ok [candTrack]) ∧
    verifySongStep envVerify (some ⟨.strVal (strL "X"), .strVal (strL " ")⟩) =
      .ok ({ song := trimStr (strL "X"), artist := [],
             name := trimStr (strL "X") ++ strL " - ", verified := true,
             spotifyId := some candTrack.id, spotifyUrl := candTrack.url,
             image := candTrack.image }, 1) :=
  ⟨⟨by decide, by decide, by decide, rfl, rfl, rfl⟩,
    verifySongs_empty_artist_behavior.2 envVerify (strL "X") (strL " ") candTrack []
      (by decide) (by decide) (by decide) rfl rfl rfl⟩

/-- Counterexample to claim C4: a song whose `song` field is whitespace-only
is empty after trimming, yet `verifySongs` does not throw — it proceeds and
returns a result for it. -/
theorem verifySongs_whitespace_field_counterexample :
    verifySongs envUnconfigured [some ⟨.strVal (strL " "), .strVal (strL "A")⟩] =
      .ok [({ song := [], artist := strL "A", name := strL " - A",
              verified := false, spotifyId := none, spotifyUrl := none,
              image := none }, 0)] := by
  rfl

theorem verifySongs_err (env : SpotifyEnv) :
    ∀ songs : List (Option SongInput), (∃ sd ∈ songs, badShape sd = true) →
      verifySongs env songs = .error () := by
  intro songs
  induction songs with
  | nil => rintro ⟨sd, hmem, -⟩; exact absurd hmem (List.not_mem_nil sd)
  | cons a rest ih =>
    rintro ⟨sd, hmem, hbad⟩
    cases hba : badShape a with
    | true => simp [verifySongs, verifySongStep, hba]
    | false =>
      have hsd : sd ∈ rest := by
        rcases List.mem_cons.mp hmem with h | h
        · rw [h] at hbad; rw [hbad] at hba; cases hba
        · exact h
      have hrest := ih ⟨sd, hsd, hbad⟩
      cases a with
      | none => simp [badShape] at hba
      | some d => simp [verifySongs, verifySongStep, hba, hrest]

theorem verifySongs_ok (env : SpotifyEnv) :
    ∀ songs : List (Option SongInput), (∀ sd ∈ songs, badShape sd = false) →
      verifySongs env songs =
        .ok (songs.map fun sd => verifySongOk env (sd.getD ⟨.missing, .missing⟩)) := by
  intro songs
  induction songs with
  | nil => intro; rfl
  | cons a rest ih =>
    intro h
    have ha := h a (List.mem_cons_self a rest)
    have hrest := ih fun sd hsd => h sd (List.mem_cons_of_mem a hsd)
    cases a with
    | none => simp [badShape] at ha
    | some d => simp [verifySongs, verifySongStep, ha, hrest, Option.getD]

/-- Claim C4 amended: a song-like value that is falsy, has a missing or
non-string field, or a field that is the empty string, makes `verifySongs`
throw; a whitespace-only field however passes the shape check (it is only
empty after trimming).  Songs passing the check are never dropped: the output
corresponds positionally (by `map`) to the input. -/
theorem verifySongs_shape_errors_and_positional :
    ∀ (env : SpotifyEnv) (songs : List (Option SongInput)),
      ((∃ sd ∈ songs, badShape sd = true) → verifySongs env songs = .error ())
      ∧ ((∀ sd ∈ songs, badShape sd = false) →
          verifySongs env songs =
            .ok (songs.map fun sd => verifySongOk env (sd.getD ⟨.missing, .missing⟩))) :=
  fun env songs => ⟨verifySongs_err env songs, verifySongs_ok env songs⟩

/-- Instance of the amended claim C4 on a well-shaped one-song list. -/
theorem verifySongs_shape_errors_and_positional_witness :
    (∀ sd ∈ ([some ⟨.strVal (strL "A"), .strVal (strL "B")⟩] :
        List (Option SongInput)), badShape sd = false)
    ∧ verifySongs envUnconfigured [some ⟨.strVal (strL "A"), .strVal (strL "B")⟩] =
        .ok (([some ⟨.strVal (strL "A"), .strVal (strL "B")⟩] :
            List (Option SongInput)).map
          fun sd => verifySongOk envUnconfigured (sd.getD ⟨.missing, .missing⟩)) :=
  ⟨by decide,
    (verifySongs_shape_errors_and_positional envUnconfigured
        [some ⟨.strVal (strL "A"), .strVal (strL "B")⟩]).2 (by decide)⟩

theorem scored_mem {ps : List CachedPlaylist} {kws : List (List Char)}
    {pr : CachedPlaylist × Nat} (h : pr ∈ scoredPlaylists ps kws) :
    pr.2 = playlistScore kws pr.1 ∧ 0 < pr.2 := by
  unfold scoredPlaylists at h
  obtain ⟨hmem, hpos⟩ := List.mem_filter.mp h
  obtain ⟨p, hp, rfl⟩ := List.mem_map.mp hmem
  exact ⟨rfl, by simpa using hpos⟩

theorem scoreDescLe_trans : ∀ a b c : CachedPlaylist × Nat,
    scoreDescLe a b → scoreDescLe b c → scoreDescLe a c := by
  intro a b c
  simp only [scoreDescLe, decide_eq_true_eq]
  omega

theorem scoreDescLe_total : ∀ a b : CachedPlaylist × Nat,
    (scoreDescLe a b || scoreDescLe b a) = true := by
  intro a b
  simp only [scoreDescLe]
  rcases Nat.le_total b.2 a.2 with h | h <;> simp [h]

/-- Claim C5: `searchPlaylists` scores word-boundary name matches above plain
name substrings above word-boundary description matches above plain
description substrings (per-keyword contributions 15, 10, 8, 5, witnessed by
the four sample playlists), excludes zero scorers, returns at most `limit`
playlists in non-increasing score order, keeps encounter order on ties
(stability of the sort), and ranks the name-match example strictly above the
description-only match. -/
theorem searchPlaylists_ranking :
    (∀ (ps : List CachedPlaylist) (kws : List (List Char)) (lim : Nat),
      (searchPlaylists ps kws lim).length ≤ lim)
    ∧ (∀ (ps : List CachedPlaylist) (kws : List (List Char)) (lim : Nat)
        (p : CachedPlaylist), p ∈ searchPlaylists ps kws lim →
          0 < playlistScore kws p)
    ∧ (∀ (ps : List CachedPlaylist) (kws : List (List Char)) (lim : Nat),
        (searchPlaylists ps kws lim).Pairwise
          fun p q => playlistScore kws q ≤ playlistScore kws p)
    ∧ (∀ (ps : List CachedPlaylist) (kws : List (List Char))
        (p q : CachedPlaylist) (sp sq : Nat), sq ≤ sp →
        List.Sublist [(p, sp), (q, sq)] (scoredPlaylists ps kws) →
        List.Sublist [(p, sp), (q, sq)]
          ((scoredPlaylists ps kws).mergeSort scoreDescLe))
    ∧ searchPlaylists [wkPlaylist, chillPlaylist] [strL "workout"] 3 =
        [wkPlaylist, chillPlaylist]
    ∧ playlistScore [strL "workout"] wkPlaylist = 25
    ∧ playlistScore [strL "workout"] chillPlaylist = 13
    ∧ playlistScore [strL "workout"] substrNamePlaylist = 10
    ∧ playlistScore [strL "workout"] substrDescPlaylist = 5 := by
  refine ⟨?_, ?_, ?_, ?_, ?_, by decide, by decide, by decide, by decide⟩
  · intro ps kws lim
    unfold searchPlaylists
    split
    · simp
    · simp only [List.length_map, List.length_take]
      omega
  · intro ps kws lim p hp
    unfold searchPlaylists at hp
    split at hp
    · cases hp
    · obtain ⟨pr, hpr, rfl⟩ := List.mem_map.mp hp
      have h1 : pr ∈ (scoredPlaylists ps kws).mergeSort scoreDescLe :=
        List.mem_of_mem_take hpr
      have h2 : pr ∈ scoredPlaylists ps kws :=
        (List.mergeSort_perm (scoredPlaylists ps kws) scoreDescLe).mem_iff.mp h1
      obtain ⟨heq, hpos⟩ := scored_mem h2
      rwa [heq] at hpos
  · intro ps kws lim
    unfold searchPlaylists
    split
    · exact List.Pairwise.nil
    · rw [List.pairwise_map]
      have hsorted : ((scoredPlaylists ps kws).mergeSort scoreDescLe).Pairwise
          (fun a b => scoreDescLe a b = true) :=
        List.sorted_mergeSort scoreDescLe_trans scoreDescLe_total _
      have htake := hsorted.sublist (List.take_sublist lim _)
      refine htake.imp_of_mem ?_
      intro a b ha hb hr
      have ha2 := scored_mem
        ((List.mergeSort_perm (scoredPlaylists ps kws) scoreDescLe).mem_iff.mp
          (List.mem_of_mem_take ha))
      have hb2 := scored_mem
        ((List.mergeSort_perm (scoredPlaylists ps kws) scoreDescLe).mem_iff.mp
          (List.mem_of_mem_take hb))
      have hr2 : b.2 ≤ a.2 := by simpa [scoreDescLe] using hr
      rw [ha2.1, hb2.1] at hr2
      exact hr2
  · intro ps kws p q sp sq hle hsub
    exact List.pair_sublist_mergeSort scoreDescLe_trans scoreDescLe_total
      (by simpa [scoreDescLe] using hle) hsub
  · have hscored : scoredPlaylists [wkPlaylist, chillPlaylist] [strL "workout"] =
        [(wkPlaylist, 25), (chillPlaylist, 13)] := by decide
    have hne : ([strL "workout"] : List (List Char)).isEmpty = false := by decide
    rw [searchPlaylists, hne]
    simp only [Bool.false_eq_true, if_false, hscored]
    rw [List.mergeSort_of_sorted (by decide)]
    decide

/-- Instance of the stability conjunct of claim C5 at the two example
playlists. -/
theorem searchPlaylists_ranking_witness :
    (13 ≤ 25 ∧
      List.Sublist [(wkPlaylist, 25), (chillPlaylist, 13)]
        (scoredPlaylists [wkPlaylist, chillPlaylist] [strL "workout"])) ∧
    List.Sublist [(wkPlaylist, 25), (chillPlaylist, 13)]
      ((scoredPlaylists [wkPlaylist, chillPlaylist] [strL "workout"]).mergeSort
        scoreDescLe) :=
  ⟨⟨by decide, by decide⟩,
    searchPlaylists_ranking.2.2.2.1 [wkPlaylist, chillPlaylist] [strL "workout"]
      wkPlaylist chillPlaylist 25 13 (by decide) (by decide)⟩

theorem sum_map_sub (l : List Usage) (f g : Usage → ℤ) :
    (l.map fun u => f u - g u).sum = (l.map f).sum - (l.map g).sum := by
  induction l with
  | nil => simp
  | cons u rest ih => simp only [List.map_cons, List.sum_cons, ih]; ring

theorem totalCostStep_foldl (l : List Usage) : ∀ acc : ℤ × ℤ × ℤ,
    l.foldl totalCostStep acc =
      (acc.1 + ((l.map fun u =>
          (u.prompt_tokens.getD 0 : ℤ) - (u.cached_tokens.getD 0 : ℤ)).sum),
        acc.2.1 + ((l.map fun u => (u.cached_tokens.getD 0 : ℤ)).sum),
        acc.2.2 + ((l.map fun u => (u.completion_tokens.getD 0 : ℤ)).sum)) := by
  induction l with
  | nil => intro acc; simp
  | cons u rest ih =>
    intro acc
    simp only [List.foldl_cons, List.map_cons, List.sum_cons, ih, totalCostStep]
    refine congrArg₂ Prod.mk ?_ (congrArg₂ Prod.mk ?_ ?_) <;> ring

theorem natSum_cast (l : List Usage) (f : Usage → ℕ) :
    (((l.map f).sum : ℕ) : ℤ) = (l.map fun u => (f u : ℤ)).sum := by
  induction l with
  | nil => simp
  | cons u rest ih => simp [ih]

/-- Claim C6: the aggregated turn cost applies the per-model rates to the
component sums — `calculateTotalCost` coincides with `calculateCost` of the
component-wise summed usages — and on the specification's two-call example it
equals the rate-weighted combined components. -/
theorem calculateTotalCost_component_sum :
    (∀ (usages : List Usage) (model : List Char),
      calculateTotalCost usages model = calculateCost (sumUsages usages) model)
    ∧ calculateTotalCost [usageA, usageB] (strL "gpt-4o") =
        calculateCost ⟨some 180, some 90, some 20⟩ (strL "gpt-4o")
    ∧ calculateTotalCost [usageA, usageB] (strL "gpt-4o") = 261 / 200000 := by
  have main : ∀ (usages : List Usage) (model : List Char),
      calculateTotalCost usages model = calculateCost (sumUsages usages) model := by
    intro usages model
    unfold calculateTotalCost calculateCost sumUsages
    rw [totalCostStep_foldl]
    simp only [Option.getD_some, Nat.zero_add, Int.zero_add, zero_add,
      sum_map_sub, natSum_cast]
  have hsum : sumUsages [usageA, usageB] =
      (⟨some 180, some 90, some 20⟩ : Usage) := by decide
  refine ⟨main, ?_, ?_⟩
  · rw [main, hsum]
  · rw [main, hsum]
    have hp : getPricing (strL "gpt-4o") = gpt4oPricing := rfl
    simp only [calculateCost, hp, gpt4oPricing, Option.getD_some]
    norm_num

/-- Instance of claim C6 at the specification's example usages. -/
theorem calculateTotalCost_component_sum_witness :
    calculateTotalCost [usageA, usageB] (strL "gpt-4o") =
      calculateCost (sumUsages [usageA, usageB]) (strL "gpt-4o") :=
  calculateTotalCost_component_sum.1 [usageA, usageB] (strL "gpt-4o")

theorem topTracks_foldl_nil (env : SpotifyEnv) (per : Nat)
    (h : ∀ nm, env.artistLookup nm = .err) :
    ∀ (names : List (List Char)) (acc : List TopTrack),
      names.foldl (fun allTracks artistName =>
        allTracks ++ topTracksForOneArtist env artistName per) acc = acc := by
  intro names
  induction names with
  | nil => intro acc; rfl
  | cons nm rest ih =>
    intro acc
    simp only [List.foldl_cons, topTracksForOneArtist, h nm, List.append_nil]
    exact ih acc

/-- Claim C7: upstream failures during reads never escape the client
boundary: a failed credential fetch inside a read, or a failed search or
listing request, degrades `searchTrack` to `null` and the listing operations
to the empty array. -/
theorem read_failures_degrade :
    ∀ (env : SpotifyEnv) (songName artistName ty mk pid : List Char)
      (limit per : Nat) (names : List (List Char)),
      (env.tokenFetch = .err →
        searchTrack env songName artistName = (none, 0)
        ∧ getPopularTracks env limit ty mk = []
        ∧ getTopTracksForArtists env names per mk = []
        ∧ getTracksFromPlaylist env pid limit mk = [])
      ∧ (env.search = .err → (searchTrack env songName artistName).1 = none)
      ∧ (∀ e, popLoop limit env.playlistPages [] = .error e →
          getPopularTracks env limit ty mk = []
          ∧ getTracksFromPlaylist env pid limit mk = [])
      ∧ ((∀ nm, env.artistLookup nm = .err) →
          getTopTracksForArtists env names per mk = []) := by
  intro env songName artistName ty mk pid limit per names
  refine ⟨?_, ?_, ?_, ?_⟩
  · intro htok
    refine ⟨?_, ?_, ?_, ?_⟩
    · cases hc : env.configured <;> simp [searchTrack, hc, htok]
    · cases hc : env.configured <;> simp [getPopularTracks, hc, htok]
    · cases hc : env.configured <;> simp [getTopTracksForArtists, hc, htok]
    · cases hc : env.configured <;> simp [getTracksFromPlaylist, hc, htok]
  · intro hsearch
    cases hc : env.configured <;> cases htok : env.tokenFetch <;>
      simp [searchTrack, hc, htok, hsearch]
  · intro e hloop
    constructor
    · cases hc : env.configured <;> cases htok : env.tokenFetch <;>
        simp [getPopularTracks, hc, htok, hloop]
    · cases hc : env.configured <;> cases htok : env.tokenFetch <;>
        simp [getTracksFromPlaylist, hc, htok, hloop]
  · intro hlookup
    cases hc : env.configured <;> cases hne : names.isEmpty <;>
      cases htok : env.tokenFetch <;>
        simp [getTopTracksForArtists, hc, hne, htok,
          topTracks_foldl_nil env per hlookup]

/-- Instance of claim C7 at concrete failing environments: a failed
credential fetch and failed read requests. -/
theorem read_failures_degrade_witness :
    (envTokenErr.tokenFetch = .err ∧
      searchTrack envTokenErr (strL "s") (strL "a") = (none, 0) ∧
      getPopularTracks envTokenErr 5 (strL "popular") (strL "US") = [] ∧
      getTopTracksForArtists envTokenErr [strL "x"] 5 (strL "US") = [] ∧
      getTracksFromPlaylist envTokenErr (strL "pl") 5 (strL "US") = []) ∧
    (envReadErr.search = .err ∧
      (searchTrack envReadErr (strL "s") (strL "a")).1 = none) ∧
    (popLoop 5 envReadErr.playlistPages [] = .error () ∧
      getPopularTracks envReadErr 5 (strL "popular") (strL "US") = [] ∧
      getTracksFromPlaylist envReadErr (strL "pl") 5 (strL "US") = []) ∧
    ((∀ nm, envReadErr.artistLookup nm = .err) ∧
      getTopTracksForArtists envReadErr [strL "x"] 5 (strL "US") = []) := by
  have h1 := (read_failures_degrade envTokenErr (strL "s") (strL "a")
    (strL "popular") (strL "US") (strL "pl") 5 5 [strL "x"]).1 rfl
  have h2 := (read_failures_degrade envReadErr (strL "s") (strL "a")
    (strL "popular") (strL "US") (strL "pl") 5 5 [strL "x"]).2.1 rfl
  have h3 := (read_failures_degrade envReadErr (strL "s") (strL "a")
    (strL "popular") (strL "US") (strL "pl") 5 5 [strL "x"]).2.2.1 () rfl
  have h4 := (read_failures_degrade envReadErr (strL "s") (strL "a")
    (strL "popular") (strL "US") (strL "pl") 5 5 [strL "x"]).2.2.2
    (fun _ => rfl)
  exact ⟨⟨rfl, h1.1, h1.2.1, h1.2.2.1, h1.2.2.2⟩, ⟨rfl, h2⟩, ⟨rfl, h3.1, h3.2⟩,
    ⟨fun _ => rfl, h4⟩⟩

/-- Claim C8: a cached, unexpired bearer token is returned without any
upstream request; when no token is cached and none is in flight, the first
caller starts exactly one upstream request, a second concurrent caller (any
later synchronous prefix before the response arrives) awaits that same
request instead of starting another, so two concurrent acquisitions issue
exactly one upstream token request; and after a response resolves, the token
is reused until its stored expiry (which embeds the safety margin). -/
theorem token_memoization :
    ∀ (configured : Bool) (now now2 : ℤ) (st : TokenState) (tok : List Char)
      (i j : Nat),
      (st.accessToken = some tok → now < st.tokenExpiry →
        tokenCallSync configured now st i = (st, 0, .cached tok))
      ∧ (st.accessToken = none → st.tokenPromise = none → configured = true →
          (tokenCallSync configured now st i).2.2 = .started i
          ∧ (tokenCallSync configured now st i).2.1 +
              (tokenCallSync configured now2
                (tokenCallSync configured now st i).1 j).2.1 = 1
          ∧ (tokenCallSync configured now2
              (tokenCallSync configured now st i).1 j).2.2 = .awaiting i)
      ∧ (∀ expiresIn : ℤ, now2 < now + (expiresIn - 600) * 1000 →
          tokenCallSync configured now2 (tokenResolve now tok expiresIn) j =
            (tokenResolve now tok expiresIn, 0, .cached tok)) := by
  intro configured now now2 st tok i j
  refine ⟨?_, ?_, ?_⟩
  · intro hcache hexp
    simp [tokenCallSync, hcache, hexp]
  · intro hnone hpromise hconf
    have hfirst : tokenCallSync configured now st i =
        ({ st with tokenPromise := some i }, 1, .started i) := by
      simp [tokenCallSync, tokenCallSync.tokenCallSlow, hnone, hpromise, hconf]
    have hsecond : tokenCallSync configured now2
        ({ st with tokenPromise := some i } : TokenState) j =
        ({ st with tokenPromise := some i }, 0, .awaiting i) := by
      simp [tokenCallSync, tokenCallSync.tokenCallSlow, hnone, hconf]
    rw [hfirst]
    simp [hsecond]
  · intro expiresIn hexp
    simp [tokenCallSync, tokenResolve, hexp]

/-- Instance of claim C8: from the empty cache, two concurrent calls issue
exactly one upstream token request; and a fresh token is returned from cache
within its expiry window. -/
theorem token_memoization_witness :
    ((⟨none, 0, none⟩ : TokenState).accessToken = none ∧
      (⟨none, 0, none⟩ : TokenState).tokenPromise = none ∧
      (tokenCallSync true 0 ⟨none, 0, none⟩ 0).2.2 = .started 0 ∧
      (tokenCallSync true 0 ⟨none, 0, none⟩ 0).2.1 +
        (tokenCallSync true 0 (tokenCallSync true 0 ⟨none, 0, none⟩ 0).1 1).2.1 = 1 ∧
      (tokenCallSync true 0 (tokenCallSync true 0 ⟨none, 0, none⟩ 0).1 1).2.2 =
        .awaiting 0) ∧
    ((tokenResolve 0 (strL "tk") 3600).accessToken = some (strL "tk") ∧
      (5 : ℤ) < 0 + (3600 - 600) * 1000 ∧
      tokenCallSync true 5 (tokenResolve 0 (strL "tk") 3600) 1 =
        (tokenResolve 0 (strL "tk") 3600, 0, .cached (strL "tk"))) := by
  have h := token_memoization true 0 0 ⟨none, 0, none⟩ (strL "tk") 0 1
  have h2 := (h.2.1 rfl rfl rfl)
  have h3 := (token_memoization true 0 5 ⟨none, 0, none⟩ (strL "tk") 0 1).2.2
    3600 (by decide)
  exact ⟨⟨rfl, rfl, h2.1, h2.2.1, h2.2.2⟩, ⟨rfl, by decide, h3⟩⟩

theorem trimStr_nil : trimStr [] = [] := rfl

theorem not_isEmpty_eq_lt {α : Type} (l : List α) :
    (!l.isEmpty) = decide (0 < l.length) := by
  cases l <;> simp

theorem fmf_eq_filterMap {α β : Type} (p : α → Bool) (f : α → β) (q : β → Bool) :
    ∀ l : List α, ((l.filter p).map f).filter q =
      l.filterMap fun x =>
        if p x then (if q (f x) then some (f x) else none) else none := by
  intro l
  induction l with
  | nil => rfl
  | cons a rest ih =>
    cases hp : p a <;> cases hq : q (f a) <;>
      simp [List.filter_cons, List.filterMap_cons, hp, hq, ih]

theorem validateAndFilterSongs_pipeline :
    ∀ items : List (Option SongInput),
      validateAndFilterSongs (some items) = .ok (items.filterMap goodSong) := by
  intro items
  simp only [validateAndFilterSongs, Except.ok.injEq]
  rw [fmf_eq_filterMap]
  congr 1
  funext sd
  match sd with
  | none => rfl
  | some ⟨.missing, af⟩ => rfl
  | some ⟨.otherVal t, af⟩ =>
    simp [fieldTruthy, fieldIsString, goodSong]
  | some ⟨.strVal s, .missing⟩ =>
    simp [fieldTruthy, fieldIsString, goodSong]
  | some ⟨.strVal s, .otherVal t⟩ =>
    simp [fieldTruthy, fieldIsString, goodSong]
  | some ⟨.strVal s, .strVal a⟩ =>
    match s, a with
    | [], a => simp [fieldTruthy, fieldIsString, goodSong, trimStr_nil]
    | c :: cs, [] => simp [fieldTruthy, fieldIsString, goodSong, trimStr_nil]
    | c :: cs, d :: ds =>
      simp [fieldTruthy, fieldIsString, goodSong, not_isEmpty_eq_lt]

/-- Claim C9: the structured-output schema allows 0 to 20 songs with required
`song`/`artist` fields, and `validateAndFilterSongs` throws only when the
`songs` value is missing or not an array; otherwise it returns exactly the
songs whose two fields are strings that are non-empty after trimming, each
returned with both fields trimmed, discarding (not throwing on) every other
element. -/
theorem validateAndFilterSongs_spec :
    (∀ items : List (Option SongInput),
      validateAndFilterSongs (some items) = .ok (items.filterMap goodSong))
    ∧ validateAndFilterSongs none =
        .error (strL "Invalid response: songs must be an array")
    ∧ (∀ items e, validateAndFilterSongs (some items) ≠ .error e)
    ∧ playlistResponseSchema.bounds.minItems = 0
    ∧ playlistResponseSchema.bounds.maxItems = 20
    ∧ playlistResponseSchema.requiredFields = [strL "song", strL "artist"] := by
  refine ⟨validateAndFilterSongs_pipeline, rfl, ?_, rfl, rfl, rfl⟩
  intro items e h
  rw [validateAndFilterSongs_pipeline items] at h
  cases h

/-- Instance of claim C9 on a concrete mixed response: the malformed entries
are discarded and the valid one is returned trimmed. -/
theorem validateAndFilterSongs_spec_witness :
    validateAndFilterSongs
        (some [none, some ⟨.strVal (strL " Hey Jude "), .strVal (strL "The Beatles")⟩,
          some ⟨.missing, .strVal (strL "X")⟩, some ⟨.strVal (strL " "), .strVal (strL "Y")⟩,
          some ⟨.strVal (strL "S"), .otherVal true⟩]) =
      .ok ([none, some ⟨.strVal (strL " Hey Jude "), .strVal (strL "The Beatles")⟩,
          some ⟨.missing, .strVal (strL "X")⟩, some ⟨.strVal (strL " "), .strVal (strL "Y")⟩,
          some ⟨.strVal (strL "S"), .otherVal true⟩].filterMap goodSong) ∧
    ([none, some ⟨.strVal (strL " Hey Jude "), .strVal (strL "The Beatles")⟩,
        some ⟨.missing, .strVal (strL "X")⟩, some ⟨.strVal (strL " "), .strVal (strL "Y")⟩,
        some ⟨.strVal (strL "S"), .otherVal true⟩].filterMap goodSong) =
      [(strL "Hey Jude", strL "The Beatles")] :=
  ⟨validateAndFilterSongs_spec.1 _, by decide⟩

theorem popDescLe_trans : ∀ a b c : PTrack,
    popDescLe a b → popDescLe b c → popDescLe a c := by
  intro a b c
  simp only [popDescLe, decide_eq_true_eq]
  omega

theorem popDescLe_total : ∀ a b : PTrack,
    (popDescLe a b || popDescLe b a) = true := by
  intro a b
  simp only [popDescLe]
  rcases Nat.le_total b.popularity a.popularity with h | h <;> simp [h]

theorem mapUpsert_fst (m : List (List Char × PTrack)) (t : PTrack) :
    (mapUpsert m t).map Prod.fst =
      if m.any (fun pr => decide (pr.1 = t.id)) then m.map Prod.fst
      else m.map Prod.fst ++ [t.id] := by
  unfold mapUpsert
  split
  · rw [List.map_map]
    refine List.map_congr_left ?_
    intro pr _
    by_cases hk : pr.1 = t.id <;> simp [hk]
  · simp

theorem jsMap_inv (l : List PTrack) : ∀ m : List (List Char × PTrack),
    (∀ pr ∈ m, pr.2.id = pr.1) → ((m.map Prod.fst).Nodup) →
    (∀ pr ∈ l.foldl mapUpsert m, pr.2.id = pr.1) ∧
      (((l.foldl mapUpsert m).map Prod.fst).Nodup) := by
  induction l with
  | nil => intro m h1 h2; exact ⟨h1, h2⟩
  | cons t rest ih =>
    intro m h1 h2
    rw [List.foldl_cons]
    apply ih
    · intro pr hpr
      unfold mapUpsert at hpr
      split at hpr
      · obtain ⟨qr, hq, rfl⟩ := List.mem_map.mp hpr
        by_cases hk : qr.1 = t.id
        · simp [hk]
        · simp [hk, h1 qr hq]
      · rcases List.mem_append.mp hpr with h | h
        · exact h1 pr h
        · simp only [List.mem_singleton] at h
          subst h
          rfl
    · rw [mapUpsert_fst]
      split
      · exact h2
      · rename_i hany
        rw [List.nodup_append]
        refine ⟨h2, List.nodup_singleton _, ?_⟩
        intro k hk hk2
        simp only [List.mem_singleton] at hk2
        obtain ⟨pr, hpr, hpr2⟩ := List.mem_map.mp hk
        apply hany
        refine List.any_eq_true.mpr ⟨pr, hpr, ?_⟩
        simp [hpr2, hk2]

theorem jsMapValues_ids_nodup (l : List PTrack) :
    ((jsMapValues l).map PTrack.id).Nodup := by
  obtain ⟨h1, h2⟩ := jsMap_inv l [] (by simp) (by simp)
  unfold jsMapValues
  rw [List.map_map]
  have heq : ((l.foldl mapUpsert []).map (PTrack.id ∘ fun pr => pr.2)) =
      (l.foldl mapUpsert []).map Prod.fst :=
    List.map_congr_left fun pr hpr => h1 pr hpr
  rw [heq]
  exact h2

/-- Claim C10: `getPopularTracks` returns at most `limit` tracks with
pairwise-distinct ids, sorted by non-increasing popularity (the sort happens
before truncation, so the full deduplicated list is sorted too), and the JS
`Map` construction keeps, per id, the position of the first occurrence and
the value of the last occurrence. -/
theorem getPopularTracks_invariants :
    (∀ (env : SpotifyEnv) (limit : Nat) (ty mk : List Char),
      (getPopularTracks env limit ty mk).length ≤ limit
      ∧ ((getPopularTracks env limit ty mk).map PTrack.id).Nodup
      ∧ (getPopularTracks env limit ty mk).Pairwise
          fun a b => b.popularity ≤ a.popularity)
    ∧ (∀ l : List PTrack, ((jsMapValues l).mergeSort popDescLe).Pairwise
        fun a b => b.popularity ≤ a.popularity)
    ∧ getPopularTracks envPages 50 (strL "popular") (strL "US") =
        [trackA2, trackB] := by
  have hsortedAll : ∀ l : List PTrack,
      ((jsMapValues l).mergeSort popDescLe).Pairwise
        fun a b => b.popularity ≤ a.popularity := by
    intro l
    have h := List.sorted_mergeSort popDescLe_trans popDescLe_total
      (jsMapValues l)
    exact h.imp fun hab => by simpa [popDescLe] using hab
  refine ⟨?_, hsortedAll, ?_⟩
  · intro env limit ty mk
    cases hc : env.configured
    · simp [getPopularTracks, hc]
    · cases htok : env.tokenFetch with
      | err => simp [getPopularTracks, hc, htok]
      | ok u =>
        cases hloop : popLoop limit env.playlistPages [] with
        | error e => simp [getPopularTracks, hc, htok, hloop]
        | ok allTracks =>
          have hres : getPopularTracks env limit ty mk =
              ((jsMapValues allTracks).mergeSort popDescLe).take limit := by
            simp [getPopularTracks, hc, htok, hloop]
          rw [hres]
          refine ⟨?_, ?_, ?_⟩
          · simp only [List.length_take]
            omega
          · rw [List.map_take]
            refine List.Nodup.sublist (List.take_sublist _ _) ?_
            have hperm : List.Perm
                (((jsMapValues allTracks).mergeSort popDescLe).map PTrack.id)
                ((jsMapValues allTracks).map PTrack.id) :=
              (List.mergeSort_perm (jsMapValues allTracks) popDescLe).map _
            exact hperm.nodup_iff.mpr (jsMapValues_ids_nodup allTracks)
          · exact (hsortedAll allTracks).sublist (List.take_sublist _ _)
  · have hstep : getPopularTracks envPages 50 (strL "popular") (strL "US") =
        ((jsMapValues (pageTracks
          ⟨[⟨some trackARaw⟩, ⟨some trackBRaw⟩, ⟨some trackA2Raw⟩], false⟩)).mergeSort
            popDescLe).take 50 := rfl
    have h2 : jsMapValues (pageTracks
        ⟨[⟨some trackARaw⟩, ⟨some trackBRaw⟩, ⟨some trackA2Raw⟩], false⟩) =
        [trackA2, trackB] := by decide
    rw [hstep, h2, List.mergeSort_of_sorted (by decide)]
    rfl

theorem stripKw_length : ∀ kw l r : List Char, stripKw kw l = some r →
    r.length + kw.length = l.length := by
  intro kw
  induction kw with
  | nil =>
    intro l r h
    simp only [stripKw, Option.some.injEq] at h
    subst h
    simp
  | cons k ks ih =>
    intro l r h
    cases l with
    | nil => cases h
    | cons c cs =>
      simp only [stripKw] at h
      split at h
      · have := ih cs r h
        simp only [List.length_cons]
        omega
      · cases h

theorem spacePlus_length : ∀ l r : List Char, spacePlus l = some r →
    r.length < l.length := by
  intro l r h
  cases l with
  | nil => cases h
  | cons c cs =>
    simp only [spacePlus] at h
    split at h
    · injection h with h2
      subst h2
      have := (List.dropWhile_sublist (l := cs) wsChar).length_le
      simp only [List.length_cons]
      omega
    · cases h

theorem dotThenSpaces_length : ∀ l r : List Char, dotThenSpaces l = some r →
    r.length < l.length := by
  intro l r h
  unfold dotThenSpaces at h
  split at h
  · rename_i rr
    split at h
    · rename_i r2 hs
      injection h with h2
      subst h2
      have := spacePlus_length rr r2 hs
      simp only [List.length_cons]
      omega
    · exact spacePlus_length _ _ h
  · exact spacePlus_length _ _ h

theorem sepAlt_length : ∀ (kw : List Char) (b : Bool) (l r : List Char), kw ≠ [] →
    sepAlt kw b l = some r → r.length < l.length := by
  intro kw b l r hkw h
  unfold sepAlt at h
  split at h
  · cases h
  · rename_i rest hs
    have hlen := stripKw_length kw l rest hs
    have hk : 0 < kw.length := by
      cases kw
      · exact absurd rfl hkw
      · simp
    split at h
    · have := dotThenSpaces_length rest r h
      omega
    · have := spacePlus_length rest r h
      omega

theorem trySep_length : ∀ l r : List Char, trySep l = some r →
    r.length < l.length := by
  intro l r h
  unfold trySep at h
  simp only [Option.orElse_eq_some'] at h
  rcases h with h1 | ⟨-, h1 | ⟨-, h1 | ⟨-, h1 | ⟨-, h1⟩⟩⟩⟩ <;>
    exact sepAlt_length _ _ _ _ (by decide) h1

theorem matchSepAt_length : ∀ l r : List Char, matchSepAt l = some r →
    r.length < l.length := by
  intro l r h
  unfold matchSepAt at h
  have h1 := trySep_length _ _ h
  have h2 := (List.dropWhile_sublist (l := l) wsChar).length_le
  omega

/-- The fuel of `splitArtistString` is sufficient: with any fuel exceeding the
input length, `splitGoF` computes the same split, so the fuel-exhausted
branch is never taken. -/
theorem splitGoF_fuel_irrelevant : ∀ (n : Nat) (l acc : List Char), l.length < n →
    splitGoF n l acc = splitGoF (l.length + 1) l acc := by
  intro n
  induction n using Nat.strong_induction_on with
  | _ n ih =>
    intro l acc h
    match n, l with
    | n + 1, [] => rfl
    | n + 1, c :: cs =>
      simp only [splitGoF, List.length_cons]
      cases hm : matchSepAt (c :: cs) with
      | some rem =>
        have hlt : rem.length < cs.length + 1 := by
          have := matchSepAt_length (c :: cs) rem hm
          simpa using this
        have hcs : cs.length < n := by
          simp only [List.length_cons] at h
          omega
        have h1 : splitGoF n rem [] = splitGoF (rem.length + 1) rem [] :=
          ih n (by omega) rem [] (by omega)
        have h2 : splitGoF (cs.length + 1) rem [] = splitGoF (rem.length + 1) rem [] :=
          ih (cs.length + 1) (by omega) rem [] (by omega)
        dsimp only
        rw [h1, h2]
      | none =>
        have hcs : cs.length < n := by
          simp only [List.length_cons] at h
          omega
        dsimp only
        exact ih n (by omega) cs (c :: acc) (by omega)
